import Mathlib

/-
Shallow embedding of the color diffusion / fluid flow simulation:
simulation/canvas.py, simulation/diffusion.py, simulation/fluid_flow.py.
Arrays become total functions from row/column indices to exact rationals
(numeric literals such as 0.05 are embedded as the exact rationals the
source text denotes); the in-place numpy updates become functional state
passing.  Coordinates that arrive from callers are integers (they may be
negative), array indices are naturals.
-/

namespace ColorSim

/-- Scalar form of np.clip: clamp x into the interval from lo to hi. -/
def clip (x lo hi : ℚ) : ℚ := min (max x lo) hi

/-- A dense 2D field, indexed by row y then column x (row-major). -/
abbrev Grid := ℕ → ℕ → ℚ

/-- Pointwise update of one cell of a grid. -/
def setCell (g : Grid) (y x : ℕ) (v : ℚ) : Grid :=
  fun j i => if j = y ∧ i = x then v else g j i

/-- Canvas from simulation/canvas.py: three color channels and the barrier
mask, all height x width. -/
structure Canvas where
  width : ℕ
  height : ℕ
  red : Grid
  green : Grid
  blue : Grid
  barriers : Grid

/-- Canvas.add_color_source: adds color times intensity at (x, y) when the
coordinate is in bounds, otherwise a silent no-op. -/
def Canvas.add_color_source (c : Canvas) (x y : ℤ) (color : ℚ × ℚ × ℚ)
    (intensity : ℚ) : Canvas :=
  if 0 ≤ x ∧ x < (c.width : ℤ) ∧ 0 ≤ y ∧ y < (c.height : ℤ) then
    { c with
      red := setCell c.red y.toNat x.toNat
        (c.red y.toNat x.toNat + color.1 * intensity)
      green := setCell c.green y.toNat x.toNat
        (c.green y.toNat x.toNat + color.2.1 * intensity)
      blue := setCell c.blue y.toNat x.toNat
        (c.blue y.toNat x.toNat + color.2.2 * intensity) }
  else c

/-- Canvas.add_barrier: sets the barrier flag at (x, y) when in bounds,
otherwise a silent no-op. -/
def Canvas.add_barrier (c : Canvas) (x y : ℤ) : Canvas :=
  if 0 ≤ x ∧ x < (c.width : ℤ) ∧ 0 ≤ y ∧ y < (c.height : ℤ) then
    { c with barriers := setCell c.barriers y.toNat x.toNat 1 }
  else c

/-- One output byte of Canvas.get_color_image: np.clip(v * 255, 0, 255)
followed by astype(np.uint8).  The cast truncates toward zero, which on the
clipped nonnegative range is the floor. -/
def toByte (v : ℚ) : ℤ := ⌊clip (v * 255) 0 255⌋

/-- Canvas.get_color_image: the stacked 8-bit RGB snapshot, one byte triple
per cell. -/
def Canvas.get_color_image (c : Canvas) : ℕ → ℕ → ℤ × ℤ × ℤ :=
  fun y x => (toByte (c.red y x), toByte (c.green y x), toByte (c.blue y x))

/-- Reflective index handling of scipy.ndimage.convolve: for the 3x3 stencils
used here only the offsets -1, 0, +1 occur, where reflect mode coincides with
clamping the index into the range 0 to n - 1. -/
def reflectIdx (n : ℕ) (i : ℤ) : ℕ := (min (max i 0) ((n : ℤ) - 1)).toNat

/-- Convolution of a height x width array with the 3x3 cross kernel (center
weight c, weight s on the four axis-adjacent neighbors) under reflective
boundary handling, as scipy.ndimage.convolve computes it on in-range cells.
The Laplacian kernel of both simulators is the instance c = -4, s = 1. -/
def crossConv (h w : ℕ) (c s : ℚ) (d : Grid) : Grid :=
  fun y x =>
    c * d (reflectIdx h y) (reflectIdx w x) +
      s * (d (reflectIdx h ((y : ℤ) - 1)) (reflectIdx w x) +
        d (reflectIdx h ((y : ℤ) + 1)) (reflectIdx w x) +
        d (reflectIdx h y) (reflectIdx w ((x : ℤ) - 1)) +
        d (reflectIdx h y) (reflectIdx w ((x : ℤ) + 1)))

/-- Per-channel diffusion rates, the dict with keys red, green, blue. -/
structure Rates where
  red : ℚ
  green : ℚ
  blue : ℚ
deriving DecidableEq

/-- The 3x3 cross mixing kernel, determined by its center and side weights. -/
structure MixKernel where
  center : ℚ
  side : ℚ
deriving DecidableEq

/-- State of DiffusionSimulator from simulation/diffusion.py. -/
structure DiffusionSimulator where
  diffusion_rates : Rates
  color_decay : ℚ
  mixing_strength : ℚ
  mixing_kernel : MixKernel

/-- DiffusionSimulator.__init__.  The mixing kernel is the hardcoded array
[[0, 0.05, 0], [0.05, 0.8, 0.05], [0, 0.05, 0]]; the mixing_strength argument
is stored but does not enter the kernel. -/
def DiffusionSimulator.init (diffusion_rates : Option Rates)
    (color_decay mixing_strength : ℚ) : DiffusionSimulator :=
  { diffusion_rates := diffusion_rates.getD ⟨1/10, 1/10, 1/10⟩
    color_decay := color_decay
    mixing_strength := mixing_strength
    mixing_kernel := ⟨4/5, 1/20⟩ }

/-- One channel of DiffusionSimulator.step: Laplacian diffusion, the mixing
convolution, decay, and the final clamp of the channel into the unit
interval. -/
def diffuseChannel (h w : ℕ) (rate : ℚ) (kern : MixKernel) (decay : ℚ)
    (data : Grid) : Grid :=
  let laplacian := crossConv h w (-4) 1 data
  let new_data : Grid := fun y x => data y x + rate * laplacian y x
  let mixed_data := crossConv h w kern.center kern.side new_data
  let decayed_data : Grid := fun y x => mixed_data y x * (1 - decay)
  fun y x => clip (decayed_data y x) 0 1

/-- DiffusionSimulator.step: the per-channel pipeline applied to red, green
and blue. -/
def DiffusionSimulator.step (sim : DiffusionSimulator) (c : Canvas) : Canvas :=
  { c with
    red := diffuseChannel c.height c.width sim.diffusion_rates.red
      sim.mixing_kernel sim.color_decay c.red
    green := diffuseChannel c.height c.width sim.diffusion_rates.green
      sim.mixing_kernel sim.color_decay c.green
    blue := diffuseChannel c.height c.width sim.diffusion_rates.blue
      sim.mixing_kernel sim.color_decay c.blue }

/-- DiffusionSimulator.set_diffusion_rates: updates the rates of the channels
present in the argument dict. -/
def DiffusionSimulator.set_diffusion_rates (sim : DiffusionSimulator)
    (r g b : Option ℚ) : DiffusionSimulator :=
  { sim with diffusion_rates :=
      ⟨r.getD sim.diffusion_rates.red, g.getD sim.diffusion_rates.green,
        b.getD sim.diffusion_rates.blue⟩ }

/-- DiffusionSimulator.set_color_decay. -/
def DiffusionSimulator.set_color_decay (sim : DiffusionSimulator)
    (decay : ℚ) : DiffusionSimulator :=
  { sim with color_decay := decay }

/-- DiffusionSimulator.set_mixing_strength: stores the strength and
regenerates the mixing kernel with center 1 - 4 * strength and side
strength. -/
def DiffusionSimulator.set_mixing_strength (sim : DiffusionSimulator)
    (strength : ℚ) : DiffusionSimulator :=
  { sim with
    mixing_strength := strength
    mixing_kernel := ⟨1 - 4 * strength, strength⟩ }

/-- One mutator call on a DiffusionSimulator, for reasoning about arbitrary
sequences of setter calls. -/
inductive DOp where
  | setRates (r g b : Option ℚ)
  | setDecay (d : ℚ)
  | setMix (s : ℚ)

/-- Apply one mutator call. -/
def DOp.apply (sim : DiffusionSimulator) : DOp → DiffusionSimulator
  | .setRates r g b => sim.set_diffusion_rates r g b
  | .setDecay d => sim.set_color_decay d
  | .setMix s => sim.set_mixing_strength s

/-- Apply a sequence of mutator calls, first element first. -/
def applyOps (sim : DiffusionSimulator) : List DOp → DiffusionSimulator
  | [] => sim
  | op :: rest => applyOps (op.apply sim) rest

/-- Whether a mutator call is a set_mixing_strength call. -/
def DOp.isSetMix : DOp → Bool
  | .setMix _ => true
  | _ => false

/-- State of FluidFlowSimulator from simulation/fluid_flow.py: parameters and
the two velocity component fields. -/
structure FluidFlowSimulator where
  viscosity : ℚ
  diffusion : ℚ
  gravity : ℚ
  u : Grid
  v : Grid

/-- FluidFlowSimulator.bilinear_interpolate on a height x width array d at the
fractional position (X, Y).  As in the source, x1 and y1 are clipped into
range before the weights are computed while x0 and y0 are not; under the
clamping advect performs, X and Y are nonnegative, so the Python
negative-index wraparound path is unreachable and toNat is faithful. -/
def bilinear_interpolate (h w : ℕ) (d : Grid) (X Y : ℚ) : ℚ :=
  let x0 : ℤ := ⌊X⌋
  let y0 : ℤ := ⌊Y⌋
  let x1 : ℤ := min (max (x0 + 1) 0) ((w : ℤ) - 1)
  let y1 : ℤ := min (max (y0 + 1) 0) ((h : ℤ) - 1)
  let Ia := d y0.toNat x0.toNat
  let Ib := d y1.toNat x0.toNat
  let Ic := d y0.toNat x1.toNat
  let Idd := d y1.toNat x1.toNat
  let wa := ((x1 : ℚ) - X) * ((y1 : ℚ) - Y)
  let wb := ((x1 : ℚ) - X) * (Y - (y0 : ℚ))
  let wc := (X - (x0 : ℚ)) * ((y1 : ℚ) - Y)
  let wd := (X - (x0 : ℚ)) * (Y - (y0 : ℚ))
  wa * Ia + wb * Ib + wc * Ic + wd * Idd

/-- FluidFlowSimulator.advect: semi-Lagrangian backtrace.  Each destination
cell samples the pre-advection field d_prev at the backtraced position,
clamped into the canvas, by bilinear interpolation. -/
def advect (h w : ℕ) (d_prev u v : Grid) (dt : ℚ) : Grid :=
  fun y x =>
    bilinear_interpolate h w d_prev
      (clip ((x : ℚ) - u y x * dt) 0 ((w : ℚ) - 1))
      (clip ((y : ℚ) - v y x * dt) 0 ((h : ℚ) - 1))

/-- FluidFlowSimulator.step: velocity diffusion and viscosity damping read
from the pre-update field, gravity added to v, barrier masking of both
velocity components, advection of the three color channels along the updated
velocity, and the final clamp of each channel into the unit interval. -/
def FluidFlowSimulator.step (sim : FluidFlowSimulator) (c : Canvas)
    (dt : ℚ) : FluidFlowSimulator × Canvas :=
  let h := c.height
  let w := c.width
  let u_lap := crossConv h w (-4) 1 sim.u
  let v_lap := crossConv h w (-4) 1 sim.v
  let u1 : Grid := fun y x =>
    sim.u y x + sim.diffusion * u_lap y x - sim.viscosity * sim.u y x
  let v1 : Grid := fun y x =>
    sim.v y x + sim.diffusion * v_lap y x - sim.viscosity * sim.v y x
      + sim.gravity
  let u2 : Grid := fun y x => u1 y x * (1 - c.barriers y x)
  let v2 : Grid := fun y x => v1 y x * (1 - c.barriers y x)
  let redA := advect h w c.red u2 v2 dt
  let greenA := advect h w c.green u2 v2 dt
  let blueA := advect h w c.blue u2 v2 dt
  ({ sim with u := u2, v := v2 },
    { c with
      red := fun y x => clip (redA y x) 0 1
      green := fun y x => clip (greenA y x) 0 1
      blue := fun y x => clip (blueA y x) 0 1 })

/-- One tick of the orchestrator in main.py: DiffusionSimulator.step followed
by FluidFlowSimulator.step. -/
def tick (dsim : DiffusionSimulator) (fsim : FluidFlowSimulator) (c : Canvas)
    (dt : ℚ) : FluidFlowSimulator × Canvas :=
  fsim.step (dsim.step c) dt

/-- A 2 x 2 canvas with empty channels, for concrete instantiations. -/
def cSmall : Canvas := ⟨2, 2, fun _ _ => 0, fun _ _ => 0, fun _ _ => 0, fun _ _ => 0⟩

/-- A 1 x 1 canvas whose red channel holds 0.999. -/
def cByte : Canvas :=
  ⟨1, 1, fun _ _ => 999/1000, fun _ _ => 0, fun _ _ => 0, fun _ _ => 0⟩

/-- A 2 x 2 canvas whose red channel holds the constant 1/2. -/
def cUniform : Canvas :=
  ⟨2, 2, fun _ _ => 1/2, fun _ _ => 0, fun _ _ => 0, fun _ _ => 0⟩

/-- A 2 x 2 canvas whose barrier mask is 1 everywhere. -/
def cBarrier : Canvas :=
  ⟨2, 2, fun _ _ => 0, fun _ _ => 0, fun _ _ => 0, fun _ _ => 1⟩

/-- A fluid simulator state with nonzero parameters and velocities. -/
def fBig : FluidFlowSimulator :=
  ⟨3/20, 1/2000, 1/50, fun _ _ => 5, fun _ _ => -7⟩

/-- Clipping into the unit interval always lands in the unit interval. -/
theorem clip01_mem (v : ℚ) : 0 ≤ clip v 0 1 ∧ clip v 0 1 ≤ 1 :=
  ⟨le_min (le_max_right v 0) zero_le_one, min_le_right _ _⟩

/-- Clipping a value already inside the unit interval is the identity. -/
theorem clip_eq_self (v : ℚ) (h0 : 0 ≤ v) (h1 : v ≤ 1) : clip v 0 1 = v := by
  unfold clip
  rw [max_eq_left h0, min_eq_left h1]

/-- Cross convolution of a pointwise constant field. -/
theorem crossConv_const (h w : ℕ) (a b k : ℚ) (d : Grid)
    (hd : ∀ y x, d y x = k) (y x : ℕ) :
    crossConv h w a b d y x = (a + 4 * b) * k := by
  unfold crossConv
  rw [hd, hd, hd, hd, hd]
  ring

/-- Claim C1: after one tick (DiffusionSimulator.step followed by
FluidFlowSimulator.step), every cell of each of the three color channels lies
in the unit interval, for every prior state and every parameter setting;
since the prior state is arbitrary, this covers every tick of every tick
sequence. -/
theorem tick_clamps_colors (dsim : DiffusionSimulator) (fsim : FluidFlowSimulator)
    (c : Canvas) (dt : ℚ) (y x : ℕ) :
    (0 ≤ (tick dsim fsim c dt).2.red y x ∧ (tick dsim fsim c dt).2.red y x ≤ 1) ∧
      (0 ≤ (tick dsim fsim c dt).2.green y x ∧
        (tick dsim fsim c dt).2.green y x ≤ 1) ∧
      (0 ≤ (tick dsim fsim c dt).2.blue y x ∧
        (tick dsim fsim c dt).2.blue y x ≤ 1) :=
  ⟨clip01_mem _, clip01_mem _, clip01_mem _⟩

/-- Multiplying by 255 commutes with the clamp: clipping v * 255 into
[0, 255] equals clipping v into [0, 1] and scaling. -/
theorem clip_mul_255 (v : ℚ) : clip (v * 255) 0 255 = clip v 0 1 * 255 := by
  unfold clip
  rw [min_mul_of_nonneg _ _ (by norm_num : (0:ℚ) ≤ 255),
    max_mul_of_nonneg _ _ (by norm_num : (0:ℚ) ≤ 255)]
  norm_num

/-- Claim C4, amended: each output channel of get_color_image is the floor
(the uint8 cast truncates) of clamp(v, 0, 1) * 255, not the rounding; the
call reads the channels without mutating them, which the functional embedding
reflects by construction. -/
theorem color_image_floor (c : Canvas) (y x : ℕ) :
    c.get_color_image y x =
      (⌊clip (c.red y x) 0 1 * 255⌋, ⌊clip (c.green y x) 0 1 * 255⌋,
        ⌊clip (c.blue y x) 0 1 * 255⌋) := by
  simp only [Canvas.get_color_image, toByte, clip_mul_255]

/-- Claim C4, counterexample: on the canvas whose red value is 0.999 the
produced byte is 254, while round(clamp(0.999, 0, 1) * 255) = round(254.745)
is 255, so the output byte is not the rounded value. -/
theorem color_image_round_cex :
    (cByte.get_color_image 0 0).1 ≠ round (clip (cByte.red 0 0) 0 1 * 255) := by
  have h1 : toByte ((999:ℚ)/1000) = 254 := by
    unfold toByte clip
    rw [max_eq_left (by norm_num), min_eq_left (by norm_num), Int.floor_eq_iff]
    norm_num
  have h2 : round (clip ((999:ℚ)/1000) 0 1 * 255) = 255 := by
    unfold clip
    rw [max_eq_left (by norm_num), min_eq_left (by norm_num), round_eq,
      Int.floor_eq_iff]
    norm_num
  show toByte ((999:ℚ)/1000) ≠ round (clip ((999:ℚ)/1000) 0 1 * 255)
  rw [h1, h2]
  norm_num

/-- Claim C5, counterexample: directly after construction with mixing
strength 1/50, the mixing kernel is the hardcoded one with center 4/5 and
side 1/20, not the cross kernel with center 1 - 4/50 and side 1/50 that the
claim requires in every reachable state. -/
theorem init_mixing_kernel_cex :
    (DiffusionSimulator.init none (1/100) (1/50)).mixing_kernel ≠
      ⟨1 - 4 * (DiffusionSimulator.init none (1/100) (1/50)).mixing_strength,
        (DiffusionSimulator.init none (1/100) (1/50)).mixing_strength⟩ := by
  intro hcontra
  have h1 : (4:ℚ)/5 = 1 - 4 * (1/50) := congrArg MixKernel.center hcontra
  norm_num at h1

/-- Claim C5, amended: after construction the mixing kernel is the fixed
kernel with center 4/5 and side 1/20 whatever mixing strength was passed;
after a set_mixing_strength call with strength s, and any further setter
calls that are not set_mixing_strength, the kernel is the cross kernel with
center 1 - 4s and side s, so the next step uses the regenerated weights. -/
theorem mixing_kernel_after_setter (rates : Option Rates) (decay strength : ℚ)
    (sim : DiffusionSimulator) (s : ℚ) (ops : List DOp)
    (hops : ∀ op ∈ ops, op.isSetMix = false) :
    (DiffusionSimulator.init rates decay strength).mixing_kernel = ⟨4/5, 1/20⟩ ∧
      (applyOps (sim.set_mixing_strength s) ops).mixing_kernel = ⟨1 - 4 * s, s⟩ := by
  refine ⟨rfl, ?_⟩
  have key : ∀ l : List DOp, (∀ op ∈ l, op.isSetMix = false) →
      ∀ t : DiffusionSimulator, (applyOps t l).mixing_kernel = t.mixing_kernel := by
    intro l
    induction l with
    | nil => intro _ t; rfl
    | cons op rest ih =>
      intro hl t
      have hop : op.isSetMix = false := hl op (List.mem_cons_self op rest)
      have hrest : ∀ o ∈ rest, o.isSetMix = false :=
        fun o ho => hl o (List.mem_cons_of_mem op ho)
      show (applyOps (op.apply t) rest).mixing_kernel = t.mixing_kernel
      rw [ih hrest]
      cases op with
      | setRates r g b => rfl
      | setDecay d => rfl
      | setMix s2 => simp [DOp.isSetMix] at hop
  rw [key ops hops]
  rfl

/-- Witness for the amended claim C5 at a concrete simulator, strength 1/10
and a later set_color_decay call. -/
theorem mixing_kernel_after_setter_w :
    (DiffusionSimulator.init none (1/100) (1/50)).mixing_kernel = ⟨4/5, 1/20⟩ ∧
      (applyOps ((DiffusionSimulator.init none (1/100) (1/50)).set_mixing_strength
          (1/10)) [DOp.setDecay (1/2)]).mixing_kernel = ⟨1 - 4 * (1/10), 1/10⟩ :=
  mixing_kernel_after_setter none (1/100) (1/50) _ (1/10) [DOp.setDecay (1/2)]
    (by intro op hop
        simp only [List.mem_singleton] at hop
        subst hop
        rfl)

/-- Claim C6: after one FluidFlowSimulator.step, both velocity components are
exactly zero at every cell whose barrier flag is 1, for every prior velocity
field and every parameter setting. -/
theorem flow_step_barrier_absorbs (sim : FluidFlowSimulator) (c : Canvas)
    (dt : ℚ) (y x : ℕ) (hb : c.barriers y x = 1) :
    (sim.step c dt).1.u y x = 0 ∧ (sim.step c dt).1.v y x = 0 := by
  constructor
  · show (sim.u y x + sim.diffusion * crossConv c.height c.width (-4) 1 sim.u y x
        - sim.viscosity * sim.u y x) * (1 - c.barriers y x) = 0
    rw [hb]
    ring
  · show (sim.v y x + sim.diffusion * crossConv c.height c.width (-4) 1 sim.v y x
        - sim.viscosity * sim.v y x + sim.gravity) * (1 - c.barriers y x) = 0
    rw [hb]
    ring

/-- Witness for claim C6: a concrete step on an all-barrier canvas zeroes the
large velocities stored at cell (0, 0). -/
theorem flow_step_barrier_absorbs_w :
    (fBig.step cBarrier 1).1.u 0 0 = 0 ∧ (fBig.step cBarrier 1).1.v 0 0 = 0 :=
  flow_step_barrier_absorbs fBig cBarrier 1 0 0 rfl

/-- Claim C9: add_color_source and add_barrier at a coordinate outside the
canvas bounds return the canvas unchanged in every field (and, being total
functions, raise no error); the velocity field lives in the flow simulator,
which these operations do not touch. -/
theorem oob_ops_noop (c : Canvas) (x y : ℤ) (color : ℚ × ℚ × ℚ) (intensity : ℚ)
    (hoob : ¬(0 ≤ x ∧ x < (c.width : ℤ) ∧ 0 ≤ y ∧ y < (c.height : ℤ))) :
    c.add_color_source x y color intensity = c ∧ c.add_barrier x y = c := by
  unfold Canvas.add_color_source Canvas.add_barrier
  rw [if_neg hoob, if_neg hoob]
  exact ⟨rfl, rfl⟩

/-- Witness for claim C9 at the out-of-bounds coordinate (-1, 0). -/
theorem oob_ops_noop_w :
    cSmall.add_color_source (-1) 0 (1, 0, 0) 1 = cSmall ∧
      cSmall.add_barrier (-1) 0 = cSmall :=
  oob_ops_noop cSmall (-1) 0 (1, 0, 0) 1 (by decide)

/-- Claim C8: one Diffusion Step on a red channel holding the constant k in
the unit interval leaves every cell (interior cells included) equal to
k * (1 - color_decay): the reflective Laplacian of the constant field
vanishes and the mixing kernel, whose weights sum to 1, preserves the
constant, so decay is the only change.  The hypotheses keep k and the decay
in the unit interval so that the final clamp is the identity. -/
theorem diffusion_uniform_decay (sim : DiffusionSimulator) (c : Canvas) (k : ℚ)
    (hred : ∀ y x, c.red y x = k)
    (hkern : sim.mixing_kernel.center + 4 * sim.mixing_kernel.side = 1)
    (hk0 : 0 ≤ k) (hk1 : k ≤ 1)
    (hd0 : 0 ≤ sim.color_decay) (hd1 : sim.color_decay ≤ 1) (y x : ℕ) :
    (sim.step c).red y x = k * (1 - sim.color_decay) := by
  have hnew : ∀ yy xx : ℕ, c.red yy xx + sim.diffusion_rates.red *
      crossConv c.height c.width (-4) 1 c.red yy xx = k := by
    intro yy xx
    rw [hred, crossConv_const c.height c.width (-4) 1 k c.red hred]
    ring
  have houter : crossConv c.height c.width sim.mixing_kernel.center
      sim.mixing_kernel.side
      (fun yy xx => c.red yy xx + sim.diffusion_rates.red *
        crossConv c.height c.width (-4) 1 c.red yy xx) y x =
      (sim.mixing_kernel.center + 4 * sim.mixing_kernel.side) * k :=
    crossConv_const _ _ _ _ k _ hnew y x
  have goal_eq : (sim.step c).red y x =
      clip (crossConv c.height c.width sim.mixing_kernel.center
        sim.mixing_kernel.side
        (fun yy xx => c.red yy xx + sim.diffusion_rates.red *
          crossConv c.height c.width (-4) 1 c.red yy xx) y x *
        (1 - sim.color_decay)) 0 1 := rfl
  rw [goal_eq, houter, hkern, one_mul]
  exact clip_eq_self _ (mul_nonneg hk0 (by linarith))
    (by nlinarith [mul_nonneg hk0 hd0])

/-- Witness for claim C8: the default-construction kernel weights sum to 1,
and a uniform red channel at 1/2 with decay 1/10 steps to 1/2 * (1 - 1/10). -/
theorem diffusion_uniform_decay_w :
    ((DiffusionSimulator.init none (1/10) (1/50)).step cUniform).red 0 0 =
      1/2 * (1 - (DiffusionSimulator.init none (1/10) (1/50)).color_decay) :=
  diffusion_uniform_decay _ cUniform (1/2) (fun _ _ => rfl)
    (by norm_num [DiffusionSimulator.init]) (by norm_num) (by norm_num)
    (by norm_num [DiffusionSimulator.init]) (by norm_num [DiffusionSimulator.init])
    0 0

/-- Bilinear interpolation at an in-range integer sample position: away from
the last row and last column it returns the source cell exactly; on the last
row or last column the clipped x1, y1 collapse onto x0, y0, every weight
vanishes, and the sample is 0. -/
theorem bilinear_at_int (h w : ℕ) (d : Grid) (y x : ℕ) (hy : y < h) (hx : x < w) :
    bilinear_interpolate h w d (x : ℚ) (y : ℚ) =
      if x + 1 = w ∨ y + 1 = h then 0 else d y x := by
  simp only [bilinear_interpolate, Int.floor_natCast]
  by_cases hxe : x + 1 = w
  · have hx1 : min (max ((x:ℤ) + 1) 0) ((w:ℤ) - 1) = (x:ℤ) := by omega
    rw [hx1, if_pos (Or.inl hxe)]
    push_cast
    ring
  · by_cases hye : y + 1 = h
    · have hy1 : min (max ((y:ℤ) + 1) 0) ((h:ℤ) - 1) = (y:ℤ) := by omega
      rw [hy1, if_pos (Or.inr hye)]
      push_cast
      ring
    · have hx1 : min (max ((x:ℤ) + 1) 0) ((w:ℤ) - 1) = (x:ℤ) + 1 := by omega
      have hy1 : min (max ((y:ℤ) + 1) 0) ((h:ℤ) - 1) = (y:ℤ) + 1 := by omega
      have tx : ((x:ℤ)).toNat = x := by omega
      have ty : ((y:ℤ)).toNat = y := by omega
      rw [hx1, hy1, if_neg (not_or.mpr ⟨hxe, hye⟩), tx, ty]
      push_cast
      ring

/-- Zero-velocity advection, computed: every cell away from the last row and
last column keeps its value, every cell of the last row or last column is
overwritten with 0. -/
theorem advect_zero_vel (h w : ℕ) (d : Grid) (dt : ℚ) (y x : ℕ)
    (hy : y < h) (hx : x < w) :
    advect h w d (fun _ _ => 0) (fun _ _ => 0) dt y x =
      if x + 1 = w ∨ y + 1 = h then 0 else d y x := by
  have hcx : clip ((x:ℚ) - 0 * dt) 0 ((w:ℚ) - 1) = (x:ℚ) := by
    have hle : (x:ℚ) ≤ (w:ℚ) - 1 := by
      have hc : (x:ℚ) + 1 ≤ (w:ℚ) := by exact_mod_cast hx
      linarith
    unfold clip
    rw [zero_mul, sub_zero, max_eq_left (Nat.cast_nonneg x), min_eq_left hle]
  have hcy : clip ((y:ℚ) - 0 * dt) 0 ((h:ℚ) - 1) = (y:ℚ) := by
    have hle : (y:ℚ) ≤ (h:ℚ) - 1 := by
      have hc : (y:ℚ) + 1 ≤ (h:ℚ) := by exact_mod_cast hy
      linarith
    unfold clip
    rw [zero_mul, sub_zero, max_eq_left (Nat.cast_nonneg y), min_eq_left hle]
  simp only [advect]
  rw [hcx, hcy]
  exact bilinear_at_int h w d y x hy hx

/-- Claim C2, counterexample: on a 2 x 2 grid holding 1 everywhere, advection
with zero velocity does not leave the last-column cell (row 0, column 1)
unchanged at 1; it writes 0 there. -/
theorem advect_zero_velocity_cex :
    advect 2 2 (fun _ _ => (1:ℚ)) (fun _ _ => 0) (fun _ _ => 0) 1 0 1 ≠ 1 := by
  have e := advect_zero_vel 2 2 (fun _ _ => (1:ℚ)) 1 0 1 (by norm_num) (by norm_num)
  norm_num at e
  rw [e]
  norm_num

/-- Claim C2, amended: with zero velocity everywhere, one advection pass
leaves every cell outside the last row and last column numerically unchanged,
and writes 0 into every cell of the last row or last column. -/
theorem advect_zero_velocity_amended (h w : ℕ) (d : Grid) (dt : ℚ) (y x : ℕ)
    (hy : y < h) (hx : x < w) :
    advect h w d (fun _ _ => 0) (fun _ _ => 0) dt y x =
      if x + 1 = w ∨ y + 1 = h then 0 else d y x :=
  advect_zero_vel h w d dt y x hy hx

/-- Witness for the amended claim C2 at an interior cell of a 2 x 2 grid. -/
theorem advect_zero_velocity_amended_w :
    advect 2 2 (fun _ _ => (3:ℚ)) (fun _ _ => 0) (fun _ _ => 0) 1 0 0 =
      if 0 + 1 = 2 ∨ 0 + 1 = 2 then 0 else (fun _ _ => (3:ℚ)) 0 0 :=
  advect_zero_velocity_amended 2 2 (fun _ _ => (3:ℚ)) 1 0 0 (by norm_num)
    (by norm_num)

/-- At sample position X = w - 1 the clipped x1 collapses onto x0 = w - 1 and
all four bilinear weights vanish, so the sample is 0. -/
theorem bilinear_edge_x (h w : ℕ) (d : Grid) (Y : ℚ) (hw : 1 ≤ w) :
    bilinear_interpolate h w d ((w:ℚ) - 1) Y = 0 := by
  have hfl : ⌊(w:ℚ) - 1⌋ = (w:ℤ) - 1 := by
    rw [show ((w:ℚ) - 1) = (((w:ℤ) - 1 : ℤ) : ℚ) by push_cast; ring,
      Int.floor_intCast]
  simp only [bilinear_interpolate]
  rw [hfl]
  have hx1 : min (max ((w:ℤ) - 1 + 1) 0) ((w:ℤ) - 1) = (w:ℤ) - 1 := by omega
  rw [hx1]
  push_cast
  ring

/-- At sample position Y = h - 1 the clipped y1 collapses onto y0 = h - 1 and
all four bilinear weights vanish, so the sample is 0. -/
theorem bilinear_edge_y (h w : ℕ) (d : Grid) (X : ℚ) (hh : 1 ≤ h) :
    bilinear_interpolate h w d X ((h:ℚ) - 1) = 0 := by
  have hfl : ⌊(h:ℚ) - 1⌋ = (h:ℤ) - 1 := by
    rw [show ((h:ℚ) - 1) = (((h:ℤ) - 1 : ℤ) : ℚ) by push_cast; ring,
      Int.floor_intCast]
  simp only [bilinear_interpolate]
  rw [hfl]
  have hy1 : min (max ((h:ℤ) - 1 + 1) 0) ((h:ℤ) - 1) = (h:ℤ) - 1 := by omega
  rw [hy1]
  push_cast
  ring

/-- Claim C10: whenever the clamped backtraced source position of a
destination cell has x-coordinate exactly w - 1 or y-coordinate exactly
h - 1, all four bilinear weights are 0 and advect writes 0 to that cell
instead of the edge value; with zero or outward velocity this is every
last-column and last-row cell. -/
theorem advect_clamped_edge_zero (h w : ℕ) (d u v : Grid) (dt : ℚ) (y x : ℕ)
    (hw : 1 ≤ w) (hh : 1 ≤ h)
    (hedge : clip ((x:ℚ) - u y x * dt) 0 ((w:ℚ) - 1) = (w:ℚ) - 1 ∨
      clip ((y:ℚ) - v y x * dt) 0 ((h:ℚ) - 1) = (h:ℚ) - 1) :
    advect h w d u v dt y x = 0 := by
  simp only [advect]
  rcases hedge with he | he
  · rw [he]
    exact bilinear_edge_x h w d _ hw
  · rw [he]
    exact bilinear_edge_y h w d _ hh

/-- Witness for claim C10: the last-column cell (0, 1) of a 2 x 2 grid with
zero velocity backtraces to x = 1 = w - 1 and receives 0. -/
theorem advect_clamped_edge_zero_w :
    advect 2 2 (fun _ _ => (4:ℚ)) (fun _ _ => 0) (fun _ _ => 0) 1 0 1 = 0 :=
  advect_clamped_edge_zero 2 2 (fun _ _ => (4:ℚ)) (fun _ _ => 0) (fun _ _ => 0)
    1 0 1 (by norm_num) (by norm_num)
    (Or.inl (by unfold clip; norm_num))

/-- Red channel of the 4 x 4 spec scenario: 1.0 on row 0, 0 elsewhere. -/
def scenRed : Grid := fun y _ => if y = 0 then 1 else 0

/-- One advection pass of the 4 x 4 scenario: u = 0 and v = 1 everywhere,
dt = 1. -/
def scenAdv : Grid := advect 4 4 scenRed (fun _ _ => 0) (fun _ _ => 1) 1

/-- The scenario advection computed: rows 0 and 1 hold 1 in columns 0 to 2
and 0 in column 3, rows 2 and 3 hold 0 everywhere. -/
theorem scenAdv_eq (y x : ℕ) (hy : y < 4) (hx : x < 4) :
    scenAdv y x = if y ≤ 1 ∧ x ≤ 2 then 1 else 0 := by
  have hcx : clip ((x:ℚ) - 0 * 1) 0 ((4:ℚ) - 1) = (x:ℚ) := by
    have hle : (x:ℚ) ≤ (4:ℚ) - 1 := by
      have hc : (x:ℚ) + 1 ≤ ((4:ℕ):ℚ) := by exact_mod_cast hx
      push_cast at hc
      linarith
    unfold clip
    rw [zero_mul, sub_zero, max_eq_left (Nat.cast_nonneg x), min_eq_left hle]
  have hcy : clip ((y:ℚ) - 1 * 1) 0 ((4:ℚ) - 1) = ((y - 1 : ℕ) : ℚ) := by
    unfold clip
    rw [one_mul]
    rcases Nat.eq_zero_or_pos y with h0 | hpos
    · subst h0
      norm_num
    · have hcast : (y:ℚ) - 1 = ((y - 1 : ℕ) : ℚ) := by
        rw [Nat.cast_sub hpos]
        norm_num
      have hge : (0:ℚ) ≤ (y:ℚ) - 1 := by
        have : (1:ℚ) ≤ (y:ℚ) := by exact_mod_cast hpos
        linarith
      have hle : (y:ℚ) - 1 ≤ (4:ℚ) - 1 := by
        have : (y:ℚ) ≤ 4 := by
          have h4 : (y:ℚ) < ((4:ℕ):ℚ) := by exact_mod_cast hy
          push_cast at h4
          linarith
        linarith
      rw [max_eq_left hge, min_eq_left hle, hcast]
  show advect 4 4 scenRed (fun _ _ => 0) (fun _ _ => 1) 1 y x = _
  simp only [advect, Nat.cast_ofNat]
  rw [hcx, hcy]
  have e := bilinear_at_int 4 4 scenRed (y - 1) x (by omega) hx
  rw [e]
  unfold scenRed
  split_ifs <;> first | rfl | (exfalso; omega)

/-- Claim C7, counterexample: in the 4 x 4 scenario the destination cell
(row 0, column 0) does not become 0; the backtraced position clamps onto
row 0 itself, which holds 1. -/
theorem advect_scenario_cex : scenAdv 0 0 ≠ 0 := by
  have e := scenAdv_eq 0 0 (by norm_num) (by norm_num)
  norm_num at e
  rw [e]
  norm_num

/-- Claim C7, amended: after the advection pass, rows 0 and 1 both hold 1.0
in columns 0 to 2 and 0 in column 3 (the clamped backtrace of row 0
resamples row 0 itself, and the last column receives 0 from the vanishing
edge weights); rows 2 and 3 hold 0 everywhere. -/
theorem advect_scenario_amended (y x : ℕ) (hy : y < 4) (hx : x < 4) :
    scenAdv y x = if y ≤ 1 ∧ x ≤ 2 then 1 else 0 :=
  scenAdv_eq y x hy hx

/-- Witness for the amended claim C7 at cell (0, 0). -/
theorem advect_scenario_amended_w :
    scenAdv 0 0 = if 0 ≤ 1 ∧ 0 ≤ 2 then 1 else 0 :=
  advect_scenario_amended 0 0 (by norm_num) (by norm_num)

end ColorSim
